import Mathlib

/-!
Verification development for the Tindiana quotation-management application
(`src/app.py`). The business-logic core — currency parsing, the batch
allocation engine (`mapa_cotacao`), the supplier scoring routine (`ranking`),
the price-deviation classifier (`get_alerta_preco` / `analisar_alerta_preco`)
and the delete operations with their referential checks — is shallowly
embedded below. Python `float` arithmetic is modelled by exact rationals `ℚ`;
Python's stable `list.sort(key=..., reverse=True)` is modelled by
`List.mergeSort` with the inverted comparison, which is stable in the same
sense; the SQLAlchemy tables are modelled as Lean lists of records, kept in
insertion order like the underlying queries.
-/

namespace Tindiana

/-- Round-half-to-even on a rational, the rounding mode of Python's
built-in `round`. Returns the nearest integer, ties to the even one. -/
def roundHalfEven (q : ℚ) : ℤ :=
  let f : ℤ := q.floor
  let r : ℚ := q - (f : ℚ)
  if r < 1/2 then f
  else if 1/2 < r then f + 1
  else if f % 2 = 0 then f else f + 1

/-- Model of Python's `round(x, 1)` (one decimal place, banker's rounding). -/
def pyRound1 (x : ℚ) : ℚ := ((roundHalfEven (x * 10) : ℤ) : ℚ) / 10

/-- Minimum of a list of rationals, as computed by Python's `min(...)`
over a nonempty sequence (`0` for the empty list, which the source never
passes). -/
def listMin : List ℚ → ℚ
  | [] => 0
  | x :: xs => xs.foldl min x

/-- Maximum of a list of rationals, as computed by Python's `max(...)`. -/
def listMax : List ℚ → ℚ
  | [] => 0
  | x :: xs => xs.foldl max x

/-- Arithmetic mean of a list of rationals; `0` on the empty list, matching
`db.func.avg(...) ... .scalar() or 0` which turns SQL `NULL` into `0`. -/
def mean (l : List ℚ) : ℚ :=
  if l = [] then 0 else l.sum / (l.length : ℚ)

/-! ### Currency parsing (`parse_moeda`, app.py lines 119-127)

`parse_moeda` does
`valor_str.replace('R$', '').replace('.', '').replace(',', '.').strip()`
and then `float(...)`, returning `None` for the empty string and on
`ValueError`. Each step is embedded on `List Char`. -/

/-- Python `str.replace('R$', '')`: delete every (left-to-right,
non-overlapping) occurrence of the two-character substring `R$`. -/
def replaceRS : List Char → List Char
  | [] => []
  | [c] => [c]
  | c :: d :: rest =>
    if c = 'R' ∧ d = '$' then replaceRS rest
    else c :: replaceRS (d :: rest)

/-- Python `str.replace('.', '')`: delete every dot. -/
def removeDots (cs : List Char) : List Char := cs.filter (· ≠ '.')

/-- Python `str.replace(',', '.')`: turn every comma into a dot. -/
def commaToDot (cs : List Char) : List Char :=
  cs.map (fun c => if c = ',' then '.' else c)

/-- Python `str.strip()`: drop whitespace from both ends. -/
def pyStrip (cs : List Char) : List Char :=
  ((cs.dropWhile Char.isWhitespace).reverse.dropWhile Char.isWhitespace).reverse

/-- `pyStrip` on `String`. -/
def pyStripS (s : String) : String := ⟨pyStrip s.toList⟩

/-- Leading sign of a numeric literal: `-` negative, `+` positive,
otherwise no sign consumed. -/
def pySign : List Char → Bool × List Char
  | '-' :: rest => (true, rest)
  | '+' :: rest => (false, rest)
  | cs => (false, cs)

/-- Value of a digit string read in base 10. -/
def digitsVal (cs : List Char) : ℕ := cs.foldl (fun a c => a * 10 + (c.toNat - 48)) 0

/-- Model of Python's `float(...)` conversion restricted to plain decimal
literals `[+|-] digits [. digits]` (with at least one digit); on every other
input it raises `ValueError`, modelled as `none`. The exotic inputs `float`
additionally accepts (exponents, `inf`, `nan`, underscores) never reach this
point through `parse_moeda`'s pipeline in the analysed flows. -/
def pyFloat (cs0 : List Char) : Option ℚ :=
  let sc := pySign cs0
  let ip := sc.2.takeWhile (· ≠ '.')
  let rest := sc.2.dropWhile (· ≠ '.')
  let parts : Option (List Char × List Char) :=
    match rest with
    | [] => some (ip, [])
    | '.' :: fr => if fr.contains '.' then none else some (ip, fr)
    | _ => none
  match parts with
  | none => none
  | some (ip, fr) =>
    if ip.all Char.isDigit ∧ fr.all Char.isDigit ∧ (ip ≠ [] ∨ fr ≠ []) then
      let v : ℚ := mkRat (digitsVal ip * 10 ^ fr.length + digitsVal fr) (10 ^ fr.length)
      some (if sc.1 then -v else v)
    else none

/-- Embedding of `parse_moeda` (app.py 119-127): `None` on the empty string,
else strip `R$`, delete dots, commas become dots, strip whitespace, convert;
conversion failure yields `None`. -/
def parse_moeda (s : String) : Option ℚ :=
  if s = "" then none
  else pyFloat (pyStrip (commaToDot (removeDots (replaceRS s.toList))))

theorem mk_eq_empty {l : List Char} : (⟨l⟩ : String) = "" ↔ l = [] := by
  constructor
  · intro h
    exact congrArg String.data h
  · rintro rfl
    rfl

theorem replaceRS_no_R : ∀ (cs : List Char), (∀ c ∈ cs, ¬ c = 'R') → replaceRS cs = cs
  | [], _ => rfl
  | [_], _ => rfl
  | c :: d :: rest, h => by
    have hc : ¬ c = 'R' := h c (by simp)
    show (if c = 'R' ∧ d = '$' then replaceRS rest else c :: replaceRS (d :: rest)) = _
    rw [if_neg (fun hand => hc hand.1)]
    rw [replaceRS_no_R (d :: rest) (fun x hx => h x (List.mem_cons_of_mem c hx))]

/-- Inserting a dot anywhere in a digits-and-commas bid string does not
change what `parse_moeda` returns: the dot is deleted (treated as a
thousands separator) before conversion, never as a decimal point. -/
theorem parse_moeda_dot_insensitive (s t : List Char)
    (h : ∀ c ∈ s ++ t, c.isDigit ∨ c = ',') :
    parse_moeda ⟨s ++ '.' :: t⟩ = parse_moeda ⟨s ++ t⟩ := by
  have hR : ∀ c ∈ s ++ '.' :: t, ¬ c = 'R' := by
    intro c hc
    have hc' : c ∈ s ++ t ∨ c = '.' := by
      rcases List.mem_append.mp hc with hc | hc
      · exact Or.inl (List.mem_append.mpr (Or.inl hc))
      · rcases List.mem_cons.mp hc with rfl | hc
        · exact Or.inr rfl
        · exact Or.inl (List.mem_append.mpr (Or.inr hc))
    rcases hc' with hc' | rfl
    · rcases h c hc' with hd | rfl
      · intro he
        rw [he] at hd
        exact absurd hd (by decide)
      · decide
    · decide
  have hR' : ∀ c ∈ s ++ t, ¬ c = 'R' := by
    intro c hc
    rcases h c hc with hd | rfl
    · intro he
      rw [he] at hd
      exact absurd hd (by decide)
    · decide
  by_cases hst : s ++ t = []
  · obtain ⟨rfl, rfl⟩ := List.append_eq_nil.mp hst
    decide
  · have h1 : (⟨s ++ '.' :: t⟩ : String) ≠ "" := by
      intro he
      have := mk_eq_empty.mp he
      simp at this
    have h2 : (⟨s ++ t⟩ : String) ≠ "" := fun he => hst (mk_eq_empty.mp he)
    rw [parse_moeda, parse_moeda, if_neg h1, if_neg h2]
    show pyFloat (pyStrip (commaToDot (removeDots (replaceRS (s ++ '.' :: t))))) =
      pyFloat (pyStrip (commaToDot (removeDots (replaceRS (s ++ t)))))
    rw [replaceRS_no_R _ hR, replaceRS_no_R _ hR']
    have hdots : removeDots (s ++ '.' :: t) = removeDots (s ++ t) := by
      rw [removeDots, removeDots, List.filter_append, List.filter_append, List.filter_cons]
      simp
    rw [hdots]

/-- C4. `parse_moeda` deletes `R$` and every dot and turns commas into dots
before converting: Brazilian-format `"1.234,56"` parses to `1234.56` while
dot-decimal `"8.50"` parses to `850` (a dot is always a thousands
separator); the empty string and strings that still fail conversion parse
to `none`; and inserting a dot anywhere in a digits-and-commas bid never
changes the result. -/
theorem parse_moeda_spec :
    parse_moeda "1.234,56" = some (123456 / 100 : ℚ) ∧
    parse_moeda "8.50" = some (850 : ℚ) ∧
    parse_moeda "R$ 8,50" = some (85 / 10 : ℚ) ∧
    parse_moeda "" = none ∧
    parse_moeda "abc" = none ∧
    (∀ s t : List Char, (∀ c ∈ s ++ t, c.isDigit ∨ c = ',') →
      parse_moeda ⟨s ++ '.' :: t⟩ = parse_moeda ⟨s ++ t⟩) := by
  refine ⟨?_, ?_, ?_, by decide, by decide, parse_moeda_dot_insensitive⟩
  · have h : parse_moeda "1.234,56" = some (mkRat 123456 100) := by decide
    rw [h, Rat.mkRat_eq_div]
    norm_num
  · have h : parse_moeda "8.50" = some (mkRat 850 1) := by decide
    rw [h, Rat.mkRat_eq_div]
    norm_num
  · have h : parse_moeda "R$ 8,50" = some (mkRat 85 10) := by decide
    rw [h, Rat.mkRat_eq_div]
    norm_num

theorem parse_moeda_spec_witness :
    parse_moeda ⟨['8', '.', '5', '0']⟩ = parse_moeda ⟨['8', '5', '0']⟩ :=
  parse_moeda_spec.2.2.2.2.2 ['8'] ['5', '0'] (by decide)

/-! ### Data model (app.py lines 52-91)

Only the fields the analysed logic reads are modelled. Primary keys are
`ℕ`; `requisicao_origem_id` is nullable hence `Option ℕ`. A fresh
`Requisicao` has `status = "Pendente"`; a `Requisicao`'s
`fornecedores_selecionados` is the many-to-many candidate-supplier list
(kept in its query order). -/

structure Produto where
  id : ℕ
  nome : String
  ativo : Bool
deriving DecidableEq, Repr

structure Fornecedor where
  id : ℕ
  nome : String
  ativo : Bool
deriving DecidableEq, Repr

structure Requisicao where
  id : ℕ
  produto_id : ℕ
  quantidade : ℕ
  status : String
  fornecedores_selecionados : List Fornecedor
deriving DecidableEq, Repr

structure Cotacao where
  id : ℕ
  preco : ℚ
  produto_id : ℕ
  fornecedor_id : ℕ
  requisicao_origem_id : Option ℕ
deriving DecidableEq, Repr

/-! ### Batch allocation engine (`mapa_cotacao`, app.py lines 975-1064) -/

/-- The form-input key `f"preco_{req.id}_{forn.id}"` (app.py line 1001). -/
def inputName (reqId fornId : ℕ) : String :=
  "preco_" ++ toString reqId ++ "_" ++ toString fornId

/-- One iteration of the bid scan (app.py lines 1000-1010): read the form
value for this supplier, strip it, skip it when empty; parse it with
`parse_moeda`; accept only a parsed, strictly positive price; replace the
running minimum only when the new price is strictly lower (`menor_preco`
starts at `float('inf')`, modelled by the accumulator being `none`). -/
def scanStep (form : String → String) (reqId : ℕ)
    (acc : Option (Fornecedor × ℚ)) (forn : Fornecedor) : Option (Fornecedor × ℚ) :=
  let valor_str := pyStripS (form (inputName reqId forn.id))
  if valor_str = "" then acc
  else
    match parse_moeda valor_str with
    | none => acc
    | some preco =>
      if 0 < preco then
        match acc with
        | none => some (forn, preco)
        | some (_, menor) => if preco < menor then some (forn, preco) else acc
      else acc

/-- The candidate-supplier set of a request (app.py line 998):
`req.fornecedores_selecionados or fornecedores` — the selected suppliers, or
every active supplier when the selection is empty (an empty Python list is
falsy). -/
def candidatosDe (req : Requisicao) (fornecedores : List Fornecedor) : List Fornecedor :=
  if req.fornecedores_selecionados = [] then fornecedores
  else req.fornecedores_selecionados

/-- The whole bid scan for one request: fold `scanStep` over the candidate
suppliers, starting with no winner. -/
def scanReq (form : String → String) (reqId : ℕ) (cands : List Fornecedor) :
    Option (Fornecedor × ℚ) :=
  cands.foldl (scanStep form reqId) none

/-- The valid bid of one supplier for one request, when there is one: the
stripped form value must be nonempty, parse, and be strictly positive.
This is the acceptance condition of `scanStep` factored out for the
specification lemmas. -/
def validBid (form : String → String) (reqId : ℕ) (forn : Fornecedor) : Option ℚ :=
  let valor_str := pyStripS (form (inputName reqId forn.id))
  if valor_str = "" then none
  else
    match parse_moeda valor_str with
    | none => none
    | some preco => if 0 < preco then some preco else none

/-- All valid bids of a candidate list, with their suppliers, in
candidate-set order. -/
def validBids (form : String → String) (reqId : ℕ) (cands : List Fornecedor) :
    List (Fornecedor × ℚ) :=
  cands.filterMap (fun f => (validBid form reqId f).map (fun p => (f, p)))

/-- Specification-level first-minimum: the leftmost pair with the least
price (earlier entries win ties). -/
def minFirstSpec : List (Fornecedor × ℚ) → Option (Fornecedor × ℚ)
  | [] => none
  | x :: l =>
    match minFirstSpec l with
    | none => some x
    | some y => if y.2 < x.2 then some y else some x

/-- One line of a winning supplier's report bucket (app.py lines 1030-1036). -/
structure Item where
  produto : String
  produto_id : ℕ
  preco : ℚ
  quantidade : ℕ
  subtotal : ℚ
deriving DecidableEq, Repr

/-- A supplier's running report bucket (app.py lines 1023-1028). -/
structure Bucket where
  nome : String
  itens : List Item
  total : ℚ
deriving DecidableEq, Repr

/-- Update of the `resultados` dict (app.py lines 1023-1037): insert a fresh
bucket at the end when the winner's key is absent (Python dicts preserve
insertion order), then append the line item and add its subtotal to the
bucket's total. -/
def addToBucket : List (ℕ × Bucket) → ℕ → String → Item → List (ℕ × Bucket)
  | [], fid, nome, item => [(fid, { nome := nome, itens := [item], total := 0 + item.subtotal })]
  | (k, b) :: rest, fid, nome, item =>
    if k = fid then
      (k, { b with itens := b.itens ++ [item], total := b.total + item.subtotal }) :: rest
    else (k, b) :: addToBucket rest fid nome item

/-- Lookup in the `resultados` dict. -/
def lookupBucket (res : List (ℕ × Bucket)) (k : ℕ) : Option Bucket :=
  (res.find? (fun kb => kb.1 = k)).map (·.2)

/-- Accumulated state of the per-request loop of `mapa_cotacao`: the
`resultados` dict, the `Cotacao` rows added to the session, and the
requests processed so far with their final statuses. -/
structure MapaState where
  resultados : List (ℕ × Bucket)
  novas : List Cotacao
  reqs : List Requisicao
deriving DecidableEq, Repr

/-- Name of the product of a request (`req.produto.nome`), resolved through
the `Produto` table like the ORM relationship. -/
def produtoNome (produtos : List Produto) (pid : ℕ) : String :=
  ((produtos.find? (fun p => p.id = pid)).map (·.nome)).getD ""

/-- Processing of a single pending request inside `mapa_cotacao`'s POST loop
(app.py lines 992-1040): scan the candidates' bids; when a winner was found
(`if vencedor_id:` — Python truthiness, so a supplier id `0` would also be
rejected), emit a `Cotacao` fact (its autoincrement primary key is assigned
by the database and not modelled, recorded as `0`), set the request status
to `Cotado`, and file the line item under the winner's bucket; in every
case the request's status finally becomes `Processado`. -/
def processaReq (produtos : List Produto) (fornecedores : List Fornecedor)
    (form : String → String) (st : MapaState) (req : Requisicao) : MapaState :=
  let cands := candidatosDe req fornecedores
  match scanReq form req.id cands with
  | some (vencedor, menor_preco) =>
    if vencedor.id ≠ 0 then
      let item : Item :=
        { produto := produtoNome produtos req.produto_id
          produto_id := req.produto_id
          preco := menor_preco
          quantidade := req.quantidade
          subtotal := menor_preco * (req.quantidade : ℚ) }
      let req1 := { req with status := "Cotado" }
      { resultados := addToBucket st.resultados vencedor.id vencedor.nome item
        novas := st.novas ++
          [{ id := 0, preco := menor_preco, produto_id := req.produto_id,
             fornecedor_id := vencedor.id, requisicao_origem_id := some req.id }]
        reqs := st.reqs ++ [{ req1 with status := "Processado" }] }
    else { st with reqs := st.reqs ++ [{ req with status := "Processado" }] }
  | none => { st with reqs := st.reqs ++ [{ req with status := "Processado" }] }

/-- Embedding of the POST branch of `mapa_cotacao` (app.py lines 975-1056):
process every `Pendente` request against the active suppliers (the
`fornecedoresAll` parameter stands for the supplier table in its query
order), then sort the report buckets by total, descending — Python's
`list.sort(key=..., reverse=True)` is a stable sort, modelled by
`List.mergeSort` with the inverted comparison. Returns the loop state and
the `relatorio` handed to the template. -/
def mapa_cotacao (produtos : List Produto) (fornecedoresAll : List Fornecedor)
    (requisicoes : List Requisicao) (form : String → String) :
    MapaState × List Bucket :=
  let pendentes := requisicoes.filter (fun r => r.status = "Pendente")
  let fornecedores := fornecedoresAll.filter (·.ativo)
  let st := pendentes.foldl (processaReq produtos fornecedores form) ⟨[], [], []⟩
  (st, (st.resultados.map (·.2)).mergeSort (fun a b => decide (b.total ≤ a.total)))

/-! ### Lemmas about the bid scan -/

/-- Fold step of the first-minimum computation on the valid-bid list. -/
def minStep (acc : Option (Fornecedor × ℚ)) (x : Fornecedor × ℚ) : Option (Fornecedor × ℚ) :=
  match acc with
  | none => some x
  | some y => if x.2 < y.2 then some x else acc

theorem scanStep_eq (form : String → String) (rid : ℕ) (acc : Option (Fornecedor × ℚ))
    (f : Fornecedor) :
    scanStep form rid acc f =
      match validBid form rid f with
      | none => acc
      | some p => minStep acc (f, p) := by
  simp only [scanStep, validBid]
  by_cases h : pyStripS (form (inputName rid f.id)) = ""
  · simp [h]
  · simp only [h, if_neg, ite_false]
    cases hp : parse_moeda (pyStripS (form (inputName rid f.id))) with
    | none => rfl
    | some p =>
      by_cases h0 : (0 : ℚ) < p
      · simp only [h0, ite_true]
        cases acc with
        | none => rfl
        | some y => rfl
      · simp [h0]

theorem validBids_cons (form : String → String) (rid : ℕ) (f : Fornecedor)
    (rest : List Fornecedor) :
    validBids form rid (f :: rest) =
      match validBid form rid f with
      | none => validBids form rid rest
      | some p => (f, p) :: validBids form rid rest := by
  simp only [validBids, List.filterMap_cons]
  cases validBid form rid f <;> rfl

theorem foldl_scanStep_eq (form : String → String) (rid : ℕ) :
    ∀ (cands : List Fornecedor) (acc : Option (Fornecedor × ℚ)),
      cands.foldl (scanStep form rid) acc = (validBids form rid cands).foldl minStep acc := by
  intro cands
  induction cands with
  | nil => intro acc; rfl
  | cons f rest ih =>
    intro acc
    rw [List.foldl_cons, scanStep_eq, validBids_cons]
    cases validBid form rid f with
    | none => exact ih acc
    | some p => rw [List.foldl_cons]; exact ih _

/-- Combination of an already-held minimum `b` with the first minimum of a
remaining list: keep `b` unless the other is strictly cheaper. -/
def minChoice (b : Fornecedor × ℚ) : Option (Fornecedor × ℚ) → Option (Fornecedor × ℚ)
  | none => some b
  | some y => if y.2 < b.2 then some y else some b

theorem minChoice_none (b : Fornecedor × ℚ) : minChoice b none = some b := rfl

theorem minChoice_some (b y : Fornecedor × ℚ) :
    minChoice b (some y) = if y.2 < b.2 then some y else some b := rfl

theorem minFirstSpec_cons (x : Fornecedor × ℚ) (l : List (Fornecedor × ℚ)) :
    minFirstSpec (x :: l) = minChoice x (minFirstSpec l) := by
  cases h : minFirstSpec l <;> simp [minFirstSpec, minChoice, h]

theorem foldl_minStep_some (l : List (Fornecedor × ℚ)) :
    ∀ b, l.foldl minStep (some b) = minChoice b (minFirstSpec l) := by
  induction l with
  | nil => intro b; rfl
  | cons x l ih =>
    intro b
    rw [List.foldl_cons, minFirstSpec_cons]
    show l.foldl minStep (if x.2 < b.2 then some x else some b) = _
    by_cases hx : x.2 < b.2
    · rw [if_pos hx, ih x]
      cases hm : minFirstSpec l with
      | none => simp [minChoice_none, minChoice_some, hx]
      | some y =>
        by_cases hy : y.2 < x.2
        · simp [minChoice_some, hy, lt_trans hy hx]
        · simp [minChoice_some, hy, hx]
    · rw [if_neg hx, ih b]
      cases hm : minFirstSpec l with
      | none => simp [minChoice_none, minChoice_some, hx]
      | some y =>
        by_cases hy : y.2 < x.2
        · simp [minChoice_some, hy]
        · have hyb : ¬ y.2 < b.2 :=
            not_lt.mpr (le_trans (not_lt.mp hx) (not_lt.mp hy))
          simp [minChoice_some, hy, hx, hyb]

/-- The bid scan computes the first minimum of the valid-bid list. -/
theorem scanReq_eq_minFirstSpec (form : String → String) (rid : ℕ)
    (cands : List Fornecedor) :
    scanReq form rid cands = minFirstSpec (validBids form rid cands) := by
  rw [scanReq, foldl_scanStep_eq]
  cases hv : validBids form rid cands with
  | nil => rfl
  | cons x l =>
    rw [List.foldl_cons]
    show l.foldl minStep (some x) = _
    rw [foldl_minStep_some, minFirstSpec_cons]

theorem minFirstSpec_eq_none {l : List (Fornecedor × ℚ)} :
    minFirstSpec l = none ↔ l = [] := by
  cases l with
  | nil => simp [minFirstSpec]
  | cons x l =>
    rw [minFirstSpec_cons]
    cases minFirstSpec l with
    | none => simp [minChoice_none]
    | some y =>
      rw [minChoice_some]
      by_cases h : y.2 < x.2 <;> simp [h]

/-- The first minimum is the leftmost least element: everything before it is
strictly more expensive, everything after it is at least as expensive. -/
theorem minFirstSpec_spec :
    ∀ {l : List (Fornecedor × ℚ)} {w : Fornecedor × ℚ}, minFirstSpec l = some w →
      ∃ l₁ l₂, l = l₁ ++ w :: l₂ ∧ (∀ x ∈ l₁, w.2 < x.2) ∧ (∀ x ∈ l₂, w.2 ≤ x.2) := by
  intro l
  induction l with
  | nil => intro w h; simp [minFirstSpec] at h
  | cons x l ih =>
    intro w h
    rw [minFirstSpec_cons] at h
    cases hm : minFirstSpec l with
    | none =>
      rw [hm, minChoice_none] at h
      obtain rfl : x = w := by simpa using h
      refine ⟨[], l, by simp, by simp, ?_⟩
      intro z hz
      rw [minFirstSpec_eq_none.mp hm] at hz
      simp at hz
    | some y =>
      rw [hm, minChoice_some] at h
      obtain ⟨l₁, l₂, hdec, h₁, h₂⟩ := ih hm
      by_cases hy : y.2 < x.2
      · rw [if_pos hy] at h
        obtain rfl : y = w := by simpa using h
        refine ⟨x :: l₁, l₂, by simp [hdec], ?_, h₂⟩
        intro z hz
        rcases List.mem_cons.mp hz with rfl | hz
        · exact hy
        · exact h₁ z hz
      · rw [if_neg hy] at h
        obtain rfl : x = w := by simpa using h
        push_neg at hy
        refine ⟨[], l, by simp, by simp, ?_⟩
        intro z hz
        rw [hdec] at hz
        rcases List.mem_append.mp hz with hz | hz
        · exact le_trans hy (le_of_lt (h₁ z hz))
        · rcases List.mem_cons.mp hz with rfl | hz
          · exact hy
          · exact le_trans hy (h₂ z hz)

/-- A scan winner is one of the candidates. -/
theorem scanReq_mem {form : String → String} {rid : ℕ} {cands : List Fornecedor}
    {w : Fornecedor × ℚ} (h : scanReq form rid cands = some w) : w.1 ∈ cands := by
  rw [scanReq_eq_minFirstSpec] at h
  obtain ⟨l₁, l₂, hdec, -, -⟩ := minFirstSpec_spec h
  have hw : w ∈ validBids form rid cands := by rw [hdec]; simp
  simp only [validBids, List.mem_filterMap, Option.map_eq_some'] at hw
  obtain ⟨f, hf, p, -, hfp⟩ := hw
  obtain rfl : f = w.1 := by rw [← hfp]
  exact hf

/-! ### Decomposition of the `mapa_cotacao` loop -/

/-- The line item produced for request `req` won at price `p`. -/
def itemDe (produtos : List Produto) (req : Requisicao) (p : ℚ) : Item :=
  { produto := produtoNome produtos req.produto_id
    produto_id := req.produto_id
    preco := p
    quantidade := req.quantidade
    subtotal := p * (req.quantidade : ℚ) }

/-- The `Cotacao` rows that processing request `req` adds to the session:
one when a winner is found, none otherwise. -/
def novasDe (fornecedores : List Fornecedor) (form : String → String)
    (req : Requisicao) : List Cotacao :=
  match scanReq form req.id (candidatosDe req fornecedores) with
  | some (v, p) =>
    if v.id ≠ 0 then
      [{ id := 0, preco := p, produto_id := req.produto_id,
         fornecedor_id := v.id, requisicao_origem_id := some req.id }]
    else []
  | none => []

/-- The effect of processing request `req` on the `resultados` dict. -/
def resStep (produtos : List Produto) (fornecedores : List Fornecedor)
    (form : String → String) (res : List (ℕ × Bucket)) (req : Requisicao) :
    List (ℕ × Bucket) :=
  match scanReq form req.id (candidatosDe req fornecedores) with
  | some (v, p) =>
    if v.id ≠ 0 then addToBucket res v.id v.nome (itemDe produtos req p) else res
  | none => res

theorem processaReq_reqs (P : List Produto) (F : List Fornecedor)
    (form : String → String) (st : MapaState) (req : Requisicao) :
    (processaReq P F form st req).reqs = st.reqs ++ [{ req with status := "Processado" }] := by
  cases h : scanReq form req.id (candidatosDe req F) with
  | none => simp [processaReq, h]
  | some vp =>
    obtain ⟨v, p⟩ := vp
    by_cases h0 : v.id = 0
    · simp [processaReq, h, h0]
    · simp [processaReq, h, h0]

theorem processaReq_novas (P : List Produto) (F : List Fornecedor)
    (form : String → String) (st : MapaState) (req : Requisicao) :
    (processaReq P F form st req).novas = st.novas ++ novasDe F form req := by
  cases h : scanReq form req.id (candidatosDe req F) with
  | none => simp [processaReq, novasDe, h]
  | some vp =>
    obtain ⟨v, p⟩ := vp
    by_cases h0 : v.id = 0
    · simp [processaReq, novasDe, h, h0]
    · simp [processaReq, novasDe, h, h0]

theorem processaReq_resultados (P : List Produto) (F : List Fornecedor)
    (form : String → String) (st : MapaState) (req : Requisicao) :
    (processaReq P F form st req).resultados = resStep P F form st.resultados req := by
  cases h : scanReq form req.id (candidatosDe req F) with
  | none => simp [processaReq, resStep, h]
  | some vp =>
    obtain ⟨v, p⟩ := vp
    by_cases h0 : v.id = 0
    · simp [processaReq, resStep, h, h0]
    · simp [processaReq, resStep, h, h0, itemDe]

theorem foldl_processa_reqs (P : List Produto) (F : List Fornecedor)
    (form : String → String) :
    ∀ (l : List Requisicao) (st : MapaState),
      (l.foldl (processaReq P F form) st).reqs =
        st.reqs ++ l.map (fun r => { r with status := "Processado" }) := by
  intro l
  induction l with
  | nil => intro st; simp
  | cons r l ih =>
    intro st
    rw [List.foldl_cons, ih, processaReq_reqs]
    simp

theorem foldl_processa_novas (P : List Produto) (F : List Fornecedor)
    (form : String → String) :
    ∀ (l : List Requisicao) (st : MapaState),
      (l.foldl (processaReq P F form) st).novas =
        st.novas ++ (l.map (novasDe F form)).flatten := by
  intro l
  induction l with
  | nil => intro st; simp
  | cons r l ih =>
    intro st
    rw [List.foldl_cons, ih, processaReq_novas]
    simp

theorem foldl_processa_resultados (P : List Produto) (F : List Fornecedor)
    (form : String → String) :
    ∀ (l : List Requisicao) (st : MapaState),
      (l.foldl (processaReq P F form) st).resultados =
        l.foldl (resStep P F form) st.resultados := by
  intro l
  induction l with
  | nil => intro st; rfl
  | cons r l ih =>
    intro st
    rw [List.foldl_cons, List.foldl_cons, ih, processaReq_resultados]

/-! ### Lemmas about the report buckets -/

theorem lookupBucket_cons (k0 : ℕ) (b : Bucket) (rest : List (ℕ × Bucket)) (k : ℕ) :
    lookupBucket ((k0, b) :: rest) k = if k0 = k then some b else lookupBucket rest k := by
  by_cases h : k0 = k
  · simp [lookupBucket, List.find?_cons, h]
  · simp [lookupBucket, List.find?_cons, h]

theorem addToBucket_cons (k0 : ℕ) (b0 : Bucket) (rest : List (ℕ × Bucket))
    (fid : ℕ) (nome : String) (item : Item) :
    addToBucket ((k0, b0) :: rest) fid nome item =
      if k0 = fid then
        (k0, { b0 with itens := b0.itens ++ [item], total := b0.total + item.subtotal }) :: rest
      else (k0, b0) :: addToBucket rest fid nome item := rfl

theorem lookupBucket_addToBucket_self :
    ∀ (res : List (ℕ × Bucket)) (k : ℕ) (nome : String) (it : Item),
      ∃ b, lookupBucket (addToBucket res k nome it) k = some b ∧ it ∈ b.itens := by
  intro res
  induction res with
  | nil =>
    intro k nome it
    refine ⟨{ nome := nome, itens := [it], total := 0 + it.subtotal }, ?_, by simp⟩
    rw [show addToBucket [] k nome it =
      [(k, { nome := nome, itens := [it], total := 0 + it.subtotal })] from rfl]
    rw [lookupBucket_cons, if_pos rfl]
  | cons kb rest ih =>
    intro k nome it
    obtain ⟨k0, b0⟩ := kb
    rw [addToBucket_cons]
    by_cases h : k0 = k
    · rw [if_pos h, lookupBucket_cons, if_pos h]
      exact ⟨_, rfl, by simp⟩
    · rw [if_neg h, lookupBucket_cons, if_neg h]
      exact ih k nome it

theorem lookupBucket_addToBucket_preserve :
    ∀ (res : List (ℕ × Bucket)) {k : ℕ} {b : Bucket} {it : Item}
      (k' : ℕ) (nome : String) (it' : Item),
      lookupBucket res k = some b → it ∈ b.itens →
      ∃ b', lookupBucket (addToBucket res k' nome it') k = some b' ∧ it ∈ b'.itens := by
  intro res
  induction res with
  | nil => intro k b it k' nome it' h _; simp [lookupBucket] at h
  | cons kb rest ih =>
    intro k b it k' nome it' hlk hmem
    obtain ⟨k0, b0⟩ := kb
    rw [lookupBucket_cons] at hlk
    rw [addToBucket_cons]
    by_cases h : k0 = k
    · rw [if_pos h] at hlk
      obtain rfl : b0 = b := by simpa using hlk
      by_cases h' : k0 = k'
      · rw [if_pos h', lookupBucket_cons, if_pos h]
        exact ⟨_, rfl, by simp [hmem]⟩
      · rw [if_neg h', lookupBucket_cons, if_pos h]
        exact ⟨_, rfl, hmem⟩
    · rw [if_neg h] at hlk
      by_cases h' : k0 = k'
      · rw [if_pos h', lookupBucket_cons, if_neg h]
        exact ⟨b, hlk, hmem⟩
      · rw [if_neg h', lookupBucket_cons, if_neg h]
        exact ih k' nome it' hlk hmem

theorem resStep_preserve (P : List Produto) (F : List Fornecedor) (form : String → String)
    {res : List (ℕ × Bucket)} {k : ℕ} {b : Bucket} {it : Item} (r : Requisicao)
    (hlk : lookupBucket res k = some b) (hmem : it ∈ b.itens) :
    ∃ b', lookupBucket (resStep P F form res r) k = some b' ∧ it ∈ b'.itens := by
  cases h : scanReq form r.id (candidatosDe r F) with
  | none => exact ⟨b, by rw [resStep, h]; exact hlk, hmem⟩
  | some vp =>
    obtain ⟨v, p⟩ := vp
    by_cases h0 : v.id = 0
    · refine ⟨b, ?_, hmem⟩
      rw [resStep, h]
      simp only [h0, ne_eq, not_true_eq_false, ite_false]
      exact hlk
    · have := lookupBucket_addToBucket_preserve res v.id v.nome (itemDe P r p) hlk hmem
      obtain ⟨b', hb', hm'⟩ := this
      refine ⟨b', ?_, hm'⟩
      rw [resStep, h]
      simp only [ne_eq, h0, not_false_eq_true, ite_true]
      exact hb'

theorem foldl_resStep_preserve (P : List Produto) (F : List Fornecedor)
    (form : String → String) :
    ∀ (l : List Requisicao) {res : List (ℕ × Bucket)} {k : ℕ} {b : Bucket} {it : Item},
      lookupBucket res k = some b → it ∈ b.itens →
      ∃ b', lookupBucket (l.foldl (resStep P F form) res) k = some b' ∧ it ∈ b'.itens := by
  intro l
  induction l with
  | nil => intro res k b it h hm; exact ⟨b, h, hm⟩
  | cons r l ih =>
    intro res k b it h hm
    rw [List.foldl_cons]
    obtain ⟨b', hb', hm'⟩ := resStep_preserve P F form r h hm
    exact ih hb' hm'

/-- Characterisation of a valid bid: a nonempty stripped form value that
parses to a strictly positive price. -/
theorem validBid_eq_some {form : String → String} {rid : ℕ} {f : Fornecedor} {p : ℚ} :
    validBid form rid f = some p ↔
      pyStripS (form (inputName rid f.id)) ≠ "" ∧
      parse_moeda (pyStripS (form (inputName rid f.id))) = some p ∧ 0 < p := by
  simp only [validBid]
  by_cases he : pyStripS (form (inputName rid f.id)) = ""
  · simp [he]
  · simp only [he, ite_false, ne_eq, not_false_eq_true, true_and]
    cases hp : parse_moeda (pyStripS (form (inputName rid f.id))) with
    | none => simp
    | some q =>
      by_cases h0 : (0 : ℚ) < q
      · simp only [h0, ite_true, Option.some.injEq]
        constructor
        · rintro rfl; exact ⟨rfl, h0⟩
        · rintro ⟨rfl, -⟩; rfl
      · simp only [h0, ite_false]
        constructor
        · intro h; simp at h
        · rintro ⟨hqp, h⟩
          obtain rfl := Option.some_inj.mp hqp
          exact absurd h h0

/-! ### C2: the winner of a request is the first minimum valid bid -/

/-- C2. In a batch allocation the winner of each pending request is the
candidate supplier with the minimum valid bid — a bid counts only if it
parses and is strictly positive — where candidates are the request's
selected suppliers, or every active supplier when the selection is empty;
on a tie the candidate evaluated first wins, since the running minimum is
replaced only by a strictly lower price. -/
theorem mapa_winner_first_minimum (form : String → String) (fornecedoresAll : List Fornecedor)
    (req : Requisicao) :
    (scanReq form req.id (candidatosDe req (fornecedoresAll.filter (·.ativo))) = none
      ↔ validBids form req.id (candidatosDe req (fornecedoresAll.filter (·.ativo))) = []) ∧
    (∀ w, scanReq form req.id (candidatosDe req (fornecedoresAll.filter (·.ativo))) = some w →
      ∃ l₁ l₂, validBids form req.id (candidatosDe req (fornecedoresAll.filter (·.ativo))) =
          l₁ ++ w :: l₂ ∧
        (∀ x ∈ l₁, w.2 < x.2) ∧ (∀ x ∈ l₂, w.2 ≤ x.2)) ∧
    (∀ f p, (f, p) ∈ validBids form req.id (candidatosDe req (fornecedoresAll.filter (·.ativo))) →
      0 < p ∧ parse_moeda (pyStripS (form (inputName req.id f.id))) = some p) ∧
    (req.fornecedores_selecionados = [] →
      candidatosDe req (fornecedoresAll.filter (·.ativo)) = fornecedoresAll.filter (·.ativo)) := by
  refine ⟨?_, ?_, ?_, ?_⟩
  · rw [scanReq_eq_minFirstSpec]
    exact minFirstSpec_eq_none
  · intro w h
    rw [scanReq_eq_minFirstSpec] at h
    exact minFirstSpec_spec h
  · intro f p hmem
    simp only [validBids, List.mem_filterMap, Option.map_eq_some'] at hmem
    obtain ⟨g, -, q, hq, hgp⟩ := hmem
    simp only [Prod.mk.injEq] at hgp
    obtain ⟨rfl, rfl⟩ := hgp
    have h := validBid_eq_some.mp hq
    exact ⟨h.2.2, h.2.1⟩
  · intro h
    simp [candidatosDe, h]

def wFornA : Fornecedor := ⟨1, "A", true⟩

def wFornB : Fornecedor := ⟨2, "B", true⟩

def wReqTie : Requisicao := ⟨1, 3, 1, "Pendente", [wFornA, wFornB]⟩

def wFormTie : String → String := fun s =>
  if s = "preco_1_1" then "5,00" else if s = "preco_1_2" then "5,00" else ""

theorem mapa_winner_first_minimum_witness :
    ∃ l₁ l₂, validBids wFormTie wReqTie.id (candidatosDe wReqTie (List.filter (·.ativo) [])) =
        l₁ ++ ((wFornA, mkRat 500 100) : Fornecedor × ℚ) :: l₂ ∧
      (∀ x ∈ l₁, ((wFornA, mkRat 500 100) : Fornecedor × ℚ).2 < x.2) ∧
      (∀ x ∈ l₂, ((wFornA, mkRat 500 100) : Fornecedor × ℚ).2 ≤ x.2) :=
  (mapa_winner_first_minimum wFormTie [] wReqTie).2.1 (wFornA, mkRat 500 100) (by decide)

/-! ### Helpers for C1 and C3 -/

theorem mapa_fst (P : List Produto) (FA : List Fornecedor) (reqs : List Requisicao)
    (form : String → String) :
    (mapa_cotacao P FA reqs form).1 =
      (reqs.filter (fun r => r.status = "Pendente")).foldl
        (processaReq P (FA.filter (·.ativo)) form) ⟨[], [], []⟩ := rfl

theorem mapa_snd (P : List Produto) (FA : List Fornecedor) (reqs : List Requisicao)
    (form : String → String) :
    (mapa_cotacao P FA reqs form).2 =
      ((mapa_cotacao P FA reqs form).1.resultados.map (·.2)).mergeSort
        (fun a b => decide (b.total ≤ a.total)) := rfl

/-- The allocation report is sorted by supplier total, descending. -/
theorem relatorio_sorted (P : List Produto) (FA : List Fornecedor) (reqs : List Requisicao)
    (form : String → String) :
    List.Pairwise (fun a b => b.total ≤ a.total) (mapa_cotacao P FA reqs form).2 := by
  rw [mapa_snd]
  have h := @List.sorted_mergeSort Bucket (fun a b => decide (b.total ≤ a.total))
    (fun a b c hab hbc => by
      simp only [decide_eq_true_eq] at *
      exact le_trans hbc hab)
    (fun a b => by
      simp only [Bool.or_eq_true, decide_eq_true_eq]
      exact le_total b.total a.total)
    ((mapa_cotacao P FA reqs form).1.resultados.map (·.2))
  exact h.imp (fun hab => of_decide_eq_true hab)

theorem novasDe_filter_ne (F : List Fornecedor) (form : String → String)
    {r : Requisicao} {rid : ℕ} (h : r.id ≠ rid) :
    (novasDe F form r).filter (fun c => decide (c.requisicao_origem_id = some rid)) = [] := by
  rw [novasDe]
  cases hs : scanReq form r.id (candidatosDe r F) with
  | none => rfl
  | some vp =>
    obtain ⟨v, p⟩ := vp
    by_cases h0 : v.id = 0
    · simp [h0]
    · simp [h0, h]

theorem novasDe_filter_self (F : List Fornecedor) (form : String → String)
    {r : Requisicao} {v : Fornecedor} {p : ℚ}
    (hs : scanReq form r.id (candidatosDe r F) = some (v, p)) (h0 : v.id ≠ 0) :
    (novasDe F form r).filter (fun c => decide (c.requisicao_origem_id = some r.id)) =
      [{ id := 0, preco := p, produto_id := r.produto_id,
         fornecedor_id := v.id, requisicao_origem_id := some r.id }] := by
  rw [novasDe, hs]
  simp [h0]

theorem flatten_novas_filter_ne (F : List Fornecedor) (form : String → String) {rid : ℕ} :
    ∀ (l : List Requisicao), (∀ r ∈ l, r.id ≠ rid) →
      ((l.map (novasDe F form)).flatten.filter
        (fun c => decide (c.requisicao_origem_id = some rid))) = [] := by
  intro l
  induction l with
  | nil => intro _; rfl
  | cons r l ih =>
    intro h
    rw [List.map_cons, List.flatten_cons, List.filter_append,
      novasDe_filter_ne F form (h r (List.mem_cons_self r l)),
      ih (fun x hx => h x (List.mem_cons_of_mem r hx))]
    rfl

theorem pend_split_ids {s t : List Requisicao} {req : Requisicao}
    (h : ((s ++ req :: t).map (fun r => r.id)).Nodup) :
    (∀ r ∈ s, r.id ≠ req.id) ∧ (∀ r ∈ t, r.id ≠ req.id) := by
  rw [List.map_append, List.map_cons, List.nodup_append] at h
  obtain ⟨-, h2, hdisj⟩ := h
  constructor
  · intro r hr heq
    exact hdisj (List.mem_map_of_mem _ hr) (by rw [heq]; exact List.mem_cons_self _ _)
  · intro r hr heq
    exact (List.nodup_cons.mp h2).1 (by rw [← heq]; exact List.mem_map_of_mem _ hr)

/-! ### C1: a bid-winning request yields exactly one quotation, a report line, and status Processado -/

/-- C1. For every pending request with at least one valid candidate bid, the
batch allocation creates exactly one new `Cotacao` carrying the request's
product, the winning supplier and the minimum bid as price, with this
request as origin; appends to the winner's report bucket a line item whose
subtotal is price × quantity; leaves the request's final status
`Processado`; and outputs the report buckets sorted by supplier total,
descending. -/
theorem mapa_allocates_request (P : List Produto) (FA : List Fornecedor)
    (reqs : List Requisicao) (form : String → String) (req : Requisicao)
    (hmem : req ∈ reqs) (hpend : req.status = "Pendente")
    (hnd : ((reqs.filter (fun r => r.status = "Pendente")).map (fun r => r.id)).Nodup)
    (hid0 : ∀ f ∈ candidatosDe req (FA.filter (·.ativo)), f.id ≠ 0)
    (hbid : validBids form req.id (candidatosDe req (FA.filter (·.ativo))) ≠ []) :
    ∃ v p, scanReq form req.id (candidatosDe req (FA.filter (·.ativo))) = some (v, p) ∧
      (∀ x ∈ validBids form req.id (candidatosDe req (FA.filter (·.ativo))), p ≤ x.2) ∧
      (mapa_cotacao P FA reqs form).1.novas.filter
          (fun c => decide (c.requisicao_origem_id = some req.id)) =
        [{ id := 0, preco := p, produto_id := req.produto_id,
           fornecedor_id := v.id, requisicao_origem_id := some req.id }] ∧
      (∃ b, lookupBucket (mapa_cotacao P FA reqs form).1.resultados v.id = some b ∧
        itemDe P req p ∈ b.itens ∧ (itemDe P req p).subtotal = p * (req.quantidade : ℚ)) ∧
      { req with status := "Processado" } ∈ (mapa_cotacao P FA reqs form).1.reqs ∧
      List.Pairwise (fun a b => b.total ≤ a.total) (mapa_cotacao P FA reqs form).2 := by
  have hs0 : scanReq form req.id (candidatosDe req (FA.filter (·.ativo))) ≠ none := by
    intro h
    rw [scanReq_eq_minFirstSpec] at h
    exact hbid (minFirstSpec_eq_none.mp h)
  obtain ⟨w, hscan⟩ := Option.ne_none_iff_exists'.mp hs0
  obtain ⟨v, p⟩ := w
  have hv0 : v.id ≠ 0 := hid0 v (scanReq_mem hscan)
  have hms : minFirstSpec (validBids form req.id (candidatosDe req (FA.filter (·.ativo)))) =
      some (v, p) := by rw [← scanReq_eq_minFirstSpec]; exact hscan
  obtain ⟨l₁, l₂, hdec, h₁, h₂⟩ := minFirstSpec_spec hms
  have hmin : ∀ x ∈ validBids form req.id (candidatosDe req (FA.filter (·.ativo))), p ≤ x.2 := by
    intro x hx
    rw [hdec] at hx
    rcases List.mem_append.mp hx with hx | hx
    · exact le_of_lt (h₁ x hx)
    · rcases List.mem_cons.mp hx with rfl | hx
      · exact le_refl _
      · exact h₂ x hx
  have hreqp : req ∈ reqs.filter (fun r => r.status = "Pendente") :=
    List.mem_filter.mpr ⟨hmem, by simp [hpend]⟩
  obtain ⟨s, t, hst⟩ := List.append_of_mem hreqp
  rw [hst] at hnd
  obtain ⟨hsne, htne⟩ := pend_split_ids hnd
  refine ⟨v, p, hscan, hmin, ?_, ?_, ?_, relatorio_sorted P FA reqs form⟩
  · have hnv : (mapa_cotacao P FA reqs form).1.novas =
        ((reqs.filter (fun r => r.status = "Pendente")).map
          (novasDe (FA.filter (·.ativo)) form)).flatten := by
      rw [mapa_fst, foldl_processa_novas]
      rfl
    rw [hnv, hst, List.map_append, List.map_cons, List.flatten_append, List.flatten_cons,
      List.filter_append, List.filter_append,
      flatten_novas_filter_ne _ form s hsne,
      flatten_novas_filter_ne _ form t htne,
      novasDe_filter_self _ form hscan hv0]
    rfl
  · have hres : (mapa_cotacao P FA reqs form).1.resultados =
        (reqs.filter (fun r => r.status = "Pendente")).foldl
          (resStep P (FA.filter (·.ativo)) form) [] := by
      rw [mapa_fst, foldl_processa_resultados]
    rw [hres, hst, List.foldl_append, List.foldl_cons]
    have hstep : resStep P (FA.filter (·.ativo)) form
        (s.foldl (resStep P (FA.filter (·.ativo)) form) []) req =
        addToBucket (s.foldl (resStep P (FA.filter (·.ativo)) form) [])
          v.id v.nome (itemDe P req p) := by
      rw [resStep, hscan]
      simp [hv0]
    rw [hstep]
    obtain ⟨b, hb, hbm⟩ :=
      lookupBucket_addToBucket_self (s.foldl (resStep P (FA.filter (·.ativo)) form) [])
        v.id v.nome (itemDe P req p)
    obtain ⟨b', hb', hbm'⟩ := foldl_resStep_preserve P (FA.filter (·.ativo)) form t hb hbm
    exact ⟨b', hb', hbm', rfl⟩
  · have hreqs : (mapa_cotacao P FA reqs form).1.reqs =
        (reqs.filter (fun r => r.status = "Pendente")).map
          (fun r => { r with status := "Processado" }) := by
      rw [mapa_fst, foldl_processa_reqs]
      rfl
    rw [hreqs]
    exact List.mem_map_of_mem _ hreqp

def wFornC : Fornecedor := ⟨3, "C", true⟩

def wProduto : Produto := ⟨3, "P3", true⟩

def wReqQty : Requisicao := ⟨1, 3, 3, "Pendente", [wFornA, wFornB, wFornC]⟩

def wFormABC : String → String := fun s =>
  if s = "preco_1_1" then "10,00"
  else if s = "preco_1_2" then "8,50"
  else if s = "preco_1_3" then "9,00" else ""

theorem mapa_allocates_request_witness :
    (∃ v p, scanReq wFormABC wReqQty.id
        (candidatosDe wReqQty (List.filter (·.ativo) [wFornA, wFornB, wFornC])) = some (v, p) ∧
      (∀ x ∈ validBids wFormABC wReqQty.id
          (candidatosDe wReqQty (List.filter (·.ativo) [wFornA, wFornB, wFornC])), p ≤ x.2) ∧
      (mapa_cotacao [wProduto] [wFornA, wFornB, wFornC] [wReqQty] wFormABC).1.novas.filter
          (fun c => decide (c.requisicao_origem_id = some wReqQty.id)) =
        [{ id := 0, preco := p, produto_id := wReqQty.produto_id,
           fornecedor_id := v.id, requisicao_origem_id := some wReqQty.id }] ∧
      (∃ b, lookupBucket
          (mapa_cotacao [wProduto] [wFornA, wFornB, wFornC] [wReqQty] wFormABC).1.resultados
          v.id = some b ∧
        itemDe [wProduto] wReqQty p ∈ b.itens ∧
        (itemDe [wProduto] wReqQty p).subtotal = p * (wReqQty.quantidade : ℚ)) ∧
      { wReqQty with status := "Processado" } ∈
        (mapa_cotacao [wProduto] [wFornA, wFornB, wFornC] [wReqQty] wFormABC).1.reqs ∧
      List.Pairwise (fun a b => b.total ≤ a.total)
        (mapa_cotacao [wProduto] [wFornA, wFornB, wFornC] [wReqQty] wFormABC).2) ∧
    scanReq wFormABC wReqQty.id
        (candidatosDe wReqQty (List.filter (·.ativo) [wFornA, wFornB, wFornC])) =
      some (wFornB, mkRat 850 100) ∧
    (itemDe [wProduto] wReqQty (mkRat 850 100)).subtotal = (2550 / 100 : ℚ) := by
  refine ⟨mapa_allocates_request [wProduto] [wFornA, wFornB, wFornC] [wReqQty] wFormABC wReqQty
    (by decide) rfl (by decide) (by decide) (by decide), by decide, ?_⟩
  show mkRat 850 100 * ((3 : ℕ) : ℚ) = 2550 / 100
  rw [Rat.mkRat_eq_div]
  norm_num

/-! ### C3: a request with no valid bid is silently skipped but still Processado -/

/-- C3. A pending request whose candidate bids are all absent, unparseable
or non-positive produces no `Cotacao`, leaves the report buckets exactly as
if the request were not in the batch, and still ends with status
`Processado` — the loop never raises for it. -/
theorem mapa_skips_unbid_request (P : List Produto) (FA : List Fornecedor)
    (reqs : List Requisicao) (form : String → String) (req : Requisicao)
    (hmem : req ∈ reqs) (hpend : req.status = "Pendente")
    (hnd : ((reqs.filter (fun r => r.status = "Pendente")).map (fun r => r.id)).Nodup)
    (hnobid : ∀ f ∈ candidatosDe req (FA.filter (·.ativo)), validBid form req.id f = none) :
    (mapa_cotacao P FA reqs form).1.novas.filter
        (fun c => decide (c.requisicao_origem_id = some req.id)) = [] ∧
    { req with status := "Processado" } ∈ (mapa_cotacao P FA reqs form).1.reqs ∧
    (mapa_cotacao P FA reqs form).1.resultados =
      (mapa_cotacao P FA (reqs.filter (fun r => decide (r.id ≠ req.id))) form).1.resultados := by
  have hvb : validBids form req.id (candidatosDe req (FA.filter (·.ativo))) = [] := by
    rw [validBids, List.filterMap_eq_nil_iff]
    intro f hf
    rw [hnobid f hf]
    rfl
  have hscan : scanReq form req.id (candidatosDe req (FA.filter (·.ativo))) = none := by
    rw [scanReq_eq_minFirstSpec, hvb]
    rfl
  have hreqp : req ∈ reqs.filter (fun r => r.status = "Pendente") :=
    List.mem_filter.mpr ⟨hmem, by simp [hpend]⟩
  obtain ⟨s, t, hst⟩ := List.append_of_mem hreqp
  rw [hst] at hnd
  obtain ⟨hsne, htne⟩ := pend_split_ids hnd
  refine ⟨?_, ?_, ?_⟩
  · have hnv : (mapa_cotacao P FA reqs form).1.novas =
        ((reqs.filter (fun r => r.status = "Pendente")).map
          (novasDe (FA.filter (·.ativo)) form)).flatten := by
      rw [mapa_fst, foldl_processa_novas]
      rfl
    have hself : (novasDe (FA.filter (·.ativo)) form req).filter
        (fun c => decide (c.requisicao_origem_id = some req.id)) = [] := by
      rw [novasDe, hscan]
      rfl
    rw [hnv, hst, List.map_append, List.map_cons, List.flatten_append, List.flatten_cons,
      List.filter_append, List.filter_append,
      flatten_novas_filter_ne _ form s hsne,
      flatten_novas_filter_ne _ form t htne, hself]
    rfl
  · have hreqs : (mapa_cotacao P FA reqs form).1.reqs =
        (reqs.filter (fun r => r.status = "Pendente")).map
          (fun r => { r with status := "Processado" }) := by
      rw [mapa_fst, foldl_processa_reqs]
      rfl
    rw [hreqs]
    exact List.mem_map_of_mem _ hreqp
  · have h1 : (mapa_cotacao P FA reqs form).1.resultados =
        (s ++ req :: t).foldl (resStep P (FA.filter (·.ativo)) form) [] := by
      rw [mapa_fst, foldl_processa_resultados, hst]
    have hfilt : (reqs.filter (fun r => decide (r.id ≠ req.id))).filter
        (fun r => r.status = "Pendente") = s ++ t := by
      rw [List.filter_filter]
      have hcomm : reqs.filter (fun a =>
          decide (a.status = "Pendente") && decide (a.id ≠ req.id)) =
          (reqs.filter (fun r => r.status = "Pendente")).filter
            (fun r => decide (r.id ≠ req.id)) := by
        rw [List.filter_filter]
        apply List.filter_congr
        intro a _
        rw [Bool.and_comm]
      rw [hcomm, hst, List.filter_append, List.filter_cons]
      rw [List.filter_eq_self.mpr (fun a ha => by simpa using hsne a ha)]
      rw [List.filter_eq_self.mpr (fun a ha => by simpa using htne a ha)]
      simp
    have h2 : (mapa_cotacao P FA (reqs.filter (fun r => decide (r.id ≠ req.id))) form).1.resultados =
        (s ++ t).foldl (resStep P (FA.filter (·.ativo)) form) [] := by
      rw [mapa_fst, foldl_processa_resultados, hfilt]
    rw [h1, h2, List.foldl_append, List.foldl_append, List.foldl_cons]
    congr 1
    rw [resStep, hscan]

def wReqNoBid : Requisicao := ⟨2, 3, 1, "Pendente", [wFornA, wFornB]⟩

def wFormNoBid : String → String := fun s =>
  if s = "preco_2_2" then "0,00" else ""

theorem mapa_skips_unbid_request_witness :
    (mapa_cotacao [wProduto] [wFornA, wFornB] [wReqNoBid] wFormNoBid).1.novas.filter
        (fun c => decide (c.requisicao_origem_id = some wReqNoBid.id)) = [] ∧
    { wReqNoBid with status := "Processado" } ∈
      (mapa_cotacao [wProduto] [wFornA, wFornB] [wReqNoBid] wFormNoBid).1.reqs ∧
    (mapa_cotacao [wProduto] [wFornA, wFornB] [wReqNoBid] wFormNoBid).1.resultados =
      (mapa_cotacao [wProduto] [wFornA, wFornB]
        ([wReqNoBid].filter (fun r => decide (r.id ≠ wReqNoBid.id))) wFormNoBid).1.resultados :=
  mapa_skips_unbid_request [wProduto] [wFornA, wFornB] [wReqNoBid] wFormNoBid wReqNoBid
    (by decide) rfl (by decide) (by decide)

/-! ### Supplier scoring (`ranking`, app.py lines 298-359) -/

/-- One entry of `ranking_data` (app.py lines 337-349), except for the
medal, which is attached afterwards and is modelled as the second component
of a pair. -/
structure ScoreRecord where
  fornecedor_id : ℕ
  fornecedor_nome : String
  qtd_cotacoes : ℕ
  preco_medio : ℚ
  score_total : ℚ
  score_preco : ℚ
  score_confiabilidade : ℚ
  score_consistencia : ℚ
  variacao_preco : ℚ
deriving DecidableEq, Repr

/-- The per-supplier body of the `ranking` loop (app.py lines 306-349):
`none` mirrors the `continue` for a supplier without quotations; otherwise
the three sub-scores and the weighted total are computed, every displayed
score rounded to one decimal with Python's `round`. -/
def buildRecord (cotacoesAll : List Cotacao) (fornecedor : Fornecedor) : Option ScoreRecord :=
  let cotacoes := cotacoesAll.filter (fun c => c.fornecedor_id = fornecedor.id)
  if cotacoes = [] then none
  else
    let todos_precos := mean (cotacoesAll.map (·.preco))
    let preco_medio := (cotacoes.map (·.preco)).sum / (cotacoes.length : ℚ)
    let score_preco :=
      if 0 < todos_precos then
        max 0 (10 - ((preco_medio - todos_precos) / todos_precos * 10))
      else 5
    let vitoria_rate := (cotacoes.length : ℚ) / ((max 1 cotacoesAll.length : ℕ) : ℚ) * 100
    let score_confiabilidade := min 10 (vitoria_rate / 100 * 10 + 3)
    let score_consistencia :=
      if 1 < cotacoes.length then
        max 1 (10 - ((listMax (cotacoes.map (·.preco)) - listMin (cotacoes.map (·.preco)))
          / preco_medio * 5))
      else 8
    let score_total := score_preco * 0.4 + score_confiabilidade * 0.35 + score_consistencia * 0.25
    some
      { fornecedor_id := fornecedor.id
        fornecedor_nome := fornecedor.nome
        qtd_cotacoes := cotacoes.length
        preco_medio := preco_medio
        score_total := pyRound1 score_total
        score_preco := pyRound1 score_preco
        score_confiabilidade := pyRound1 score_confiabilidade
        score_consistencia := pyRound1 score_consistencia
        variacao_preco :=
          if 1 < cotacoes.length then
            listMax (cotacoes.map (·.preco)) - listMin (cotacoes.map (·.preco))
          else 0 }

/-- The three rank badges (app.py line 355). -/
def medalhas : List String := ["🥇", "🥈", "🥉"]

/-- Badge assignment (app.py lines 356-357): the entries at positions
`0`, `1`, `2` of the sorted list receive the medals, all others none. -/
def addMedalhas : ℕ → List ScoreRecord → List (ScoreRecord × Option String)
  | _, [] => []
  | i, r :: rs => (r, medalhas[i]?) :: addMedalhas (i + 1) rs

/-- The unsorted `ranking_data`: active suppliers in table order, scored,
suppliers without quotations skipped. -/
def rankingBase (fornecedores : List Fornecedor) (cotacoes : List Cotacao) : List ScoreRecord :=
  (fornecedores.filter (·.ativo)).filterMap (buildRecord cotacoes)

/-- `ranking_data.sort(key=lambda x: x['score_total'], reverse=True)`
(app.py line 352): Python's stable descending sort, modelled by
`List.mergeSort` with the inverted comparison. -/
def rankingSorted (fornecedores : List Fornecedor) (cotacoes : List Cotacao) : List ScoreRecord :=
  (rankingBase fornecedores cotacoes).mergeSort (fun a b => decide (b.score_total ≤ a.score_total))

/-- Embedding of the `ranking` route (app.py lines 298-359): score, sort
descending, attach medals to the top three. -/
def ranking (fornecedores : List Fornecedor) (cotacoes : List Cotacao) :
    List (ScoreRecord × Option String) :=
  addMedalhas 0 (rankingSorted fornecedores cotacoes)

/-! ### Price-deviation classification (app.py lines 93-109 and 129-146)

`Cotacao.get_alerta_preco` and the free function `analisar_alerta_preco`
are the same computation; both compare a price against the mean of all
quotation prices recorded for the product. The returned dict is modelled by
the pair (tipo, label). -/

/-- Deviation classification of a price against a product's price history
(app.py lines 93-109): mean of the history (`0` when empty, like
`avg(...) or 0`), `Novo` when that mean is `0`, otherwise strict `< -10` /
`> 15` percent boundaries. -/
def get_alerta_preco (preco : ℚ) (historico : List ℚ) : String × String :=
  if mean historico = 0 then ("normal", "Novo")
  else if (preco - mean historico) / mean historico * 100 < -10 then ("bom", "Preço Bom")
  else if 15 < (preco - mean historico) / mean historico * 100 then ("alto", "Preço Alto")
  else ("normal", "Normal")

/-- The classification of a stored quotation: its price against the prices
of all quotations of the same product. -/
def alertaDe (cotacoes : List Cotacao) (c : Cotacao) : String × String :=
  get_alerta_preco c.preco
    ((cotacoes.filter (fun d => d.produto_id = c.produto_id)).map (·.preco))

/-! ### C6: deviation classification boundaries -/

/-- C6. A quotation's deviation classification uses the arithmetic mean of
all quotation prices of its product (`0` when no history): `Novo` when
there is no (nonzero) historical mean, `Preço Bom` exactly when the
percentage difference is strictly below `-10`, `Preço Alto` exactly when it
is strictly above `15`, `Normal` otherwise — so the boundaries `-10` and
`15` themselves classify as `Normal`. -/
theorem alerta_classification (cotacoes : List Cotacao) (c : Cotacao) (m : ℚ)
    (hm : m = mean ((cotacoes.filter (fun d => d.produto_id = c.produto_id)).map (·.preco))) :
    ((cotacoes.filter (fun d => d.produto_id = c.produto_id)) = [] →
      alertaDe cotacoes c = ("normal", "Novo")) ∧
    (m ≠ 0 →
      ((alertaDe cotacoes c = ("bom", "Preço Bom") ↔ (c.preco - m) / m * 100 < -10) ∧
       (alertaDe cotacoes c = ("alto", "Preço Alto") ↔ 15 < (c.preco - m) / m * 100) ∧
       (alertaDe cotacoes c = ("normal", "Normal") ↔
         -10 ≤ (c.preco - m) / m * 100 ∧ (c.preco - m) / m * 100 ≤ 15))) := by
  constructor
  · intro h
    rw [alertaDe, h]
    simp [get_alerta_preco, mean]
  · intro hm0
    rw [alertaDe, get_alerta_preco, ← hm, if_neg hm0]
    by_cases h1 : (c.preco - m) / m * 100 < -10
    · rw [if_pos h1]
      exact ⟨by simp [h1], ⟨fun h => by simp at h, fun h15 => absurd h15 (by linarith)⟩,
        ⟨fun h => by simp at h, fun hc => absurd h1 (not_lt.mpr hc.1)⟩⟩
    · rw [if_neg h1]
      by_cases h2 : 15 < (c.preco - m) / m * 100
      · rw [if_pos h2]
        exact ⟨⟨fun h => by simp at h, fun hlt => absurd hlt (by linarith)⟩, by simp [h2],
          ⟨fun h => by simp at h, fun hc => absurd h2 (not_lt.mpr hc.2)⟩⟩
      · rw [if_neg h2]
        exact ⟨⟨fun h => by simp at h, fun hlt => absurd hlt h1⟩,
          ⟨fun h => by simp at h, fun h15 => absurd h15 h2⟩,
          ⟨fun _ => ⟨not_lt.mp h1, not_lt.mp h2⟩, fun _ => rfl⟩⟩

def wCotHist1 : Cotacao := ⟨1, 110, 3, 1, none⟩

def wCotLow : Cotacao := ⟨2, 90, 3, 2, none⟩

def wCotHist2 : Cotacao := ⟨3, 85, 3, 1, none⟩

def wCotHigh : Cotacao := ⟨4, 115, 3, 2, none⟩

theorem alerta_classification_witness :
    alertaDe [wCotHist1, wCotLow] wCotLow = ("normal", "Normal") ∧
    alertaDe [wCotHist2, wCotHigh] wCotHigh = ("normal", "Normal") := by
  constructor
  · exact ((alerta_classification [wCotHist1, wCotLow] wCotLow 100
      (by simp [mean, wCotHist1, wCotLow]; norm_num)).2
      (by norm_num)).2.2.mpr ⟨by norm_num [wCotLow], by norm_num [wCotLow]⟩
  · exact ((alerta_classification [wCotHist2, wCotHigh] wCotHigh 100
      (by simp [mean, wCotHist2, wCotHigh]; norm_num)).2
      (by norm_num)).2.2.mpr ⟨by norm_num [wCotHigh], by norm_num [wCotHigh]⟩

/-! ### C5: the score formulas -/

theorem mem_addMedalhas_of_mem :
    ∀ (i : ℕ) {l : List ScoreRecord} {a : ScoreRecord}, a ∈ l →
      ∃ med, (a, med) ∈ addMedalhas i l := by
  intro i l
  induction l generalizing i with
  | nil => intro a h; simp at h
  | cons r rs ih =>
    intro a h
    rcases List.mem_cons.mp h with rfl | h
    · exact ⟨medalhas[i]?, List.mem_cons_self _ _⟩
    · obtain ⟨med, hm⟩ := ih (i + 1) h
      exact ⟨med, List.mem_cons_of_mem _ hm⟩

/-- C5. Every active supplier with at least one quotation appears in the
ranking with: price score `max(0, 10 − ((supplier mean − global mean) /
global mean × 10))` when the global mean is positive, else `5`, with no
upper clamp; reliability score `min(10, count/total × 10 + 3)`; consistency
score `max(1, 10 − ((max − min)/mean × 5))` for more than one quotation,
else `8`; and total `0.4·price + 0.35·reliability + 0.25·consistency`, each
displayed value rounded to one decimal by Python's `round`. -/
theorem ranking_scores (FA : List Fornecedor) (cots : List Cotacao) (f : Fornecedor)
    (cf : List Cotacao) (hcf : cf = cots.filter (fun c => c.fornecedor_id = f.id))
    (hf : f ∈ FA) (hativo : f.ativo = true) (hc : cf ≠ [])
    (P R C : ℚ)
    (hP : P = if 0 < mean (cots.map (·.preco)) then
        max 0 (10 - (((cf.map (·.preco)).sum / (cf.length : ℚ) - mean (cots.map (·.preco)))
          / mean (cots.map (·.preco)) * 10))
      else 5)
    (hR : R = min 10 ((cf.length : ℚ) / (cots.length : ℚ) * 10 + 3))
    (hC : C = if 1 < cf.length then
        max 1 (10 - ((listMax (cf.map (·.preco)) - listMin (cf.map (·.preco)))
          / ((cf.map (·.preco)).sum / (cf.length : ℚ)) * 5))
      else 8) :
    ∃ r med, (r, med) ∈ ranking FA cots ∧ r.fornecedor_id = f.id ∧
      r.qtd_cotacoes = cf.length ∧
      r.score_preco = pyRound1 P ∧
      r.score_confiabilidade = pyRound1 R ∧
      r.score_consistencia = pyRound1 C ∧
      r.score_total = pyRound1 (P * 0.4 + R * 0.35 + C * 0.25) := by
  subst hcf hP hR hC
  have hcots : cots ≠ [] := by
    intro h
    rw [h] at hc
    exact hc rfl
  have hmax : max 1 cots.length = cots.length :=
    Nat.max_eq_right (Nat.one_le_iff_ne_zero.mpr
      (fun h => hcots (List.length_eq_zero.mp h)))
  have hRR : ((cots.filter (fun c => c.fornecedor_id = f.id)).length : ℚ)
        / ((max 1 cots.length : ℕ) : ℚ) * 100 / 100 * 10 + 3 =
      ((cots.filter (fun c => c.fornecedor_id = f.id)).length : ℚ)
        / (cots.length : ℚ) * 10 + 3 := by
    rw [hmax]
    ring
  have hb0 : buildRecord cots f = some
      { fornecedor_id := f.id
        fornecedor_nome := f.nome
        qtd_cotacoes := (cots.filter (fun c => c.fornecedor_id = f.id)).length
        preco_medio := ((cots.filter (fun c => c.fornecedor_id = f.id)).map (·.preco)).sum
          / (((cots.filter (fun c => c.fornecedor_id = f.id)).length : ℕ) : ℚ)
        score_total := pyRound1
          ((if 0 < mean (cots.map (·.preco)) then
              max 0 (10 - ((((cots.filter (fun c => c.fornecedor_id = f.id)).map (·.preco)).sum
                / (((cots.filter (fun c => c.fornecedor_id = f.id)).length : ℕ) : ℚ)
                - mean (cots.map (·.preco))) / mean (cots.map (·.preco)) * 10))
            else 5) * 0.4 +
          min 10 (((cots.filter (fun c => c.fornecedor_id = f.id)).length : ℚ)
            / ((max 1 cots.length : ℕ) : ℚ) * 100 / 100 * 10 + 3) * 0.35 +
          (if 1 < (cots.filter (fun c => c.fornecedor_id = f.id)).length then
              max 1 (10 - ((listMax ((cots.filter (fun c => c.fornecedor_id = f.id)).map (·.preco))
                - listMin ((cots.filter (fun c => c.fornecedor_id = f.id)).map (·.preco)))
                / (((cots.filter (fun c => c.fornecedor_id = f.id)).map (·.preco)).sum
                  / (((cots.filter (fun c => c.fornecedor_id = f.id)).length : ℕ) : ℚ)) * 5))
            else 8) * 0.25)
        score_preco := pyRound1
          (if 0 < mean (cots.map (·.preco)) then
            max 0 (10 - ((((cots.filter (fun c => c.fornecedor_id = f.id)).map (·.preco)).sum
              / (((cots.filter (fun c => c.fornecedor_id = f.id)).length : ℕ) : ℚ)
              - mean (cots.map (·.preco))) / mean (cots.map (·.preco)) * 10))
          else 5)
        score_confiabilidade := pyRound1
          (min 10 (((cots.filter (fun c => c.fornecedor_id = f.id)).length : ℚ)
            / ((max 1 cots.length : ℕ) : ℚ) * 100 / 100 * 10 + 3))
        score_consistencia := pyRound1
          (if 1 < (cots.filter (fun c => c.fornecedor_id = f.id)).length then
            max 1 (10 - ((listMax ((cots.filter (fun c => c.fornecedor_id = f.id)).map (·.preco))
              - listMin ((cots.filter (fun c => c.fornecedor_id = f.id)).map (·.preco)))
              / (((cots.filter (fun c => c.fornecedor_id = f.id)).map (·.preco)).sum
                / (((cots.filter (fun c => c.fornecedor_id = f.id)).length : ℕ) : ℚ)) * 5))
          else 8)
        variacao_preco :=
          if 1 < (cots.filter (fun c => c.fornecedor_id = f.id)).length then
            listMax ((cots.filter (fun c => c.fornecedor_id = f.id)).map (·.preco))
              - listMin ((cots.filter (fun c => c.fornecedor_id = f.id)).map (·.preco))
          else 0 } := by
    simp only [buildRecord]
    rw [if_neg hc]
  have h1 := List.mem_filterMap.mpr ⟨f, List.mem_filter.mpr ⟨hf, hativo⟩, hb0⟩
  have h2 : _ ∈ rankingSorted FA cots := List.mem_mergeSort.mpr h1
  obtain ⟨med, hmed⟩ := mem_addMedalhas_of_mem 0 h2
  refine ⟨_, med, hmed, rfl, rfl, rfl, ?_, rfl, ?_⟩
  · exact congrArg pyRound1 (by rw [hRR])
  · exact congrArg pyRound1 (by rw [hRR])

theorem roundHalfEven_eq_of (z : ℤ) (q : ℚ) (h1 : (z : ℚ) ≤ q) (h2 : q - (z : ℚ) < 1 / 2) :
    roundHalfEven q = z := by
  have hf : q.floor = z := by
    have hle : z ≤ q.floor := Rat.le_floor.mpr h1
    have hlt : q.floor ≤ z := by
      by_contra hcon
      push_neg at hcon
      have h3 : ((z : ℚ) + 1) ≤ ((q.floor : ℤ) : ℚ) := by
        exact_mod_cast Int.add_one_le_iff.mpr hcon
      have h4 : ((q.floor : ℤ) : ℚ) ≤ q := Rat.le_floor.mp (le_refl q.floor)
      linarith
    exact le_antisymm hlt hle
  simp only [roundHalfEven, hf]
  rw [if_pos h2]

def wCotCheap : Cotacao := ⟨1, 10, 3, 1, none⟩

def wCotDear : Cotacao := ⟨2, 1000, 3, 2, none⟩

theorem ranking_scores_witness :
    ∃ r med, (r, med) ∈ ranking [wFornA, wFornB] [wCotCheap, wCotDear] ∧
      r.fornecedor_id = wFornA.id ∧ r.score_preco = (99 / 5 : ℚ) ∧ 10 < r.score_preco := by
  obtain ⟨r, med, hmem, hid, -, hp, -, -, -⟩ :=
    ranking_scores [wFornA, wFornB] [wCotCheap, wCotDear] wFornA
      [wCotCheap] rfl (by decide) rfl (by decide) _ _ _ rfl rfl rfl
  have hm : mean ([wCotCheap, wCotDear].map (·.preco)) = 505 := by
    simp [mean, wCotCheap, wCotDear]
    norm_num
  have hPval : (if 0 < mean ([wCotCheap, wCotDear].map (·.preco)) then
      max 0 (10 - ((([wCotCheap].map (·.preco)).sum / (([wCotCheap] : List Cotacao).length : ℚ)
        - mean ([wCotCheap, wCotDear].map (·.preco)))
        / mean ([wCotCheap, wCotDear].map (·.preco)) * 10))
    else 5) = 2000 / 101 := by
    rw [hm, if_pos (by norm_num : (0 : ℚ) < 505)]
    have hs : (([wCotCheap].map (·.preco)).sum / (([wCotCheap] : List Cotacao).length : ℚ)) =
        (10 : ℚ) := by
      simp [wCotCheap]
    rw [hs, max_eq_right (by norm_num)]
    norm_num
  have hfl : roundHalfEven ((2000 / 101 : ℚ) * 10) = 198 :=
    roundHalfEven_eq_of 198 _ (by norm_num) (by norm_num)
  have hround : pyRound1 (2000 / 101 : ℚ) = 99 / 5 := by
    rw [pyRound1, hfl]
    norm_num
  refine ⟨r, med, hmem, hid, ?_, ?_⟩
  · rw [hp, hPval]
    exact hround
  · rw [hp, hPval, hround]
    norm_num

/-! ### C7: ranking membership, order, stability, badges -/

theorem addMedalhas_map_fst : ∀ (i : ℕ) (l : List ScoreRecord),
    (addMedalhas i l).map Prod.fst = l := by
  intro i l
  induction l generalizing i with
  | nil => rfl
  | cons r rs ih =>
    show (r, medalhas[i]?).1 :: (addMedalhas (i + 1) rs).map Prod.fst = r :: rs
    rw [ih (i + 1)]

theorem addMedalhas_get : ∀ (i : ℕ) (l : List ScoreRecord) (j : ℕ)
    (h : j < (addMedalhas i l).length),
    ((addMedalhas i l).get ⟨j, h⟩).2 = medalhas[i + j]? := by
  intro i l
  induction l generalizing i with
  | nil => intro j h; simp [addMedalhas] at h
  | cons r rs ih =>
    intro j h
    cases j with
    | zero => rfl
    | succ j =>
      show (((r, medalhas[i]?) :: addMedalhas (i + 1) rs).get ⟨j + 1, h⟩).2 = _
      rw [List.get_cons_succ]
      rw [ih (i + 1) j _]
      congr 1
      omega

theorem buildRecord_props {cots : List Cotacao} {f : Fornecedor} {r : ScoreRecord}
    (h : buildRecord cots f = some r) :
    r.fornecedor_id = f.id ∧ cots.filter (fun c => c.fornecedor_id = f.id) ≠ [] := by
  by_cases hc : cots.filter (fun c => c.fornecedor_id = f.id) = []
  · simp only [buildRecord] at h
    rw [if_pos hc] at h
    exact absurd h (by simp)
  · simp only [buildRecord] at h
    rw [if_neg hc] at h
    obtain rfl := Option.some_inj.mp h
    exact ⟨rfl, hc⟩

/-- C7. The ranking page lists exactly the active suppliers that have at
least one quotation; entries are ordered by total score descending by a
stable sort (entries with equal total keep their original iteration order,
with no secondary key); and exactly the first three entries carry a rank
badge. -/
theorem ranking_membership_order (FA : List Fornecedor) (cots : List Cotacao) :
    (∀ rm ∈ ranking FA cots, ∃ f ∈ FA, f.ativo = true ∧
      (rm : ScoreRecord × Option String).1.fornecedor_id = f.id ∧
      cots.filter (fun c => c.fornecedor_id = f.id) ≠ []) ∧
    (∀ f ∈ FA, f.ativo = true → cots.filter (fun c => c.fornecedor_id = f.id) ≠ [] →
      ∃ rm ∈ ranking FA cots, (rm : ScoreRecord × Option String).1.fornecedor_id = f.id) ∧
    List.Pairwise (fun x y : ScoreRecord × Option String =>
      y.1.score_total ≤ x.1.score_total) (ranking FA cots) ∧
    (∀ q : ℚ, ((ranking FA cots).map Prod.fst).filter (fun r => decide (r.score_total = q)) =
      (rankingBase FA cots).filter (fun r => decide (r.score_total = q))) ∧
    (∀ (i : ℕ) (h : i < (ranking FA cots).length),
      (((ranking FA cots).get ⟨i, h⟩).2 ≠ none ↔ i < 3)) := by
  have htrans : ∀ (a b c : ScoreRecord), decide (b.score_total ≤ a.score_total) →
      decide (c.score_total ≤ b.score_total) → decide (c.score_total ≤ a.score_total) := by
    intro a b c hab hbc
    simp only [decide_eq_true_eq] at *
    exact le_trans hbc hab
  have htotal : ∀ (a b : ScoreRecord), decide (b.score_total ≤ a.score_total) ||
      decide (a.score_total ≤ b.score_total) := by
    intro a b
    simp only [Bool.or_eq_true, decide_eq_true_eq]
    exact le_total b.score_total a.score_total
  refine ⟨?_, ?_, ?_, ?_, ?_⟩
  · intro rm hrm
    have h1 : rm.1 ∈ (ranking FA cots).map Prod.fst := List.mem_map_of_mem _ hrm
    rw [ranking, addMedalhas_map_fst] at h1
    have h2 : rm.1 ∈ rankingBase FA cots := List.mem_mergeSort.mp h1
    obtain ⟨f, hf, hb⟩ := List.mem_filterMap.mp h2
    obtain ⟨hfFA, hativo⟩ := List.mem_filter.mp hf
    obtain ⟨hid, hcne⟩ := buildRecord_props hb
    exact ⟨f, hfFA, by simpa using hativo, hid, hcne⟩
  · intro f hf hativo hcne
    have hb0 : ∃ r, buildRecord cots f = some r := by
      simp only [buildRecord]
      rw [if_neg hcne]
      exact ⟨_, rfl⟩
    obtain ⟨r, hb⟩ := hb0
    have h1 : r ∈ rankingBase FA cots :=
      List.mem_filterMap.mpr ⟨f, List.mem_filter.mpr ⟨hf, by simpa using hativo⟩, hb⟩
    have h2 : r ∈ rankingSorted FA cots := List.mem_mergeSort.mpr h1
    obtain ⟨med, hmed⟩ := mem_addMedalhas_of_mem 0 h2
    exact ⟨(r, med), hmed, (buildRecord_props hb).1⟩
  · have hs := @List.sorted_mergeSort ScoreRecord
      (fun a b => decide (b.score_total ≤ a.score_total))
      htrans htotal (rankingBase FA cots)
    have hs' : List.Pairwise (fun a b : ScoreRecord => b.score_total ≤ a.score_total)
        ((ranking FA cots).map Prod.fst) := by
      rw [ranking, addMedalhas_map_fst]
      exact hs.imp (fun h => of_decide_eq_true h)
    rw [List.pairwise_map] at hs'
    exact hs'
  · intro q
    rw [ranking, addMedalhas_map_fst]
    have hpw : ((rankingBase FA cots).filter (fun r => decide (r.score_total = q))).Pairwise
        (fun a b : ScoreRecord => decide (b.score_total ≤ a.score_total)) := by
      apply List.pairwise_of_forall_mem_list
      intro a ha b hb
      have ha' := of_decide_eq_true (List.mem_filter.mp ha).2
      have hb' := of_decide_eq_true (List.mem_filter.mp hb).2
      simp only [decide_eq_true_eq]
      rw [ha', hb']
    have hsub : List.Sublist
        ((rankingBase FA cots).filter (fun r => decide (r.score_total = q)))
        (rankingSorted FA cots) :=
      List.sublist_mergeSort htrans htotal hpw (List.filter_sublist _)
    have hidem : ((rankingBase FA cots).filter (fun r => decide (r.score_total = q))).filter
        (fun r => decide (r.score_total = q)) =
        (rankingBase FA cots).filter (fun r => decide (r.score_total = q)) := by
      rw [List.filter_filter]
      apply List.filter_congr
      intro a _
      rw [Bool.and_self]
    have hsubf : List.Sublist
        ((rankingBase FA cots).filter (fun r => decide (r.score_total = q)))
        ((rankingSorted FA cots).filter (fun r => decide (r.score_total = q))) := by
      have h := hsub.filter (fun r => decide (r.score_total = q))
      rwa [hidem] at h
    have hperm : List.Perm
        ((rankingSorted FA cots).filter (fun r => decide (r.score_total = q)))
        ((rankingBase FA cots).filter (fun r => decide (r.score_total = q))) :=
      (List.mergeSort_perm _ _).filter _
    exact (hsubf.eq_of_length hperm.length_eq.symm).symm
  · intro i h
    simp only [ranking] at h ⊢
    rw [addMedalhas_get 0 _ i h]
    simp only [Nat.zero_add, ne_eq, List.getElem?_eq_none_iff, medalhas, List.length_cons,
      List.length_nil]
    omega

theorem ranking_membership_order_witness :
    ∃ rm ∈ ranking [wFornA, wFornB] [wCotCheap, wCotDear],
      (rm : ScoreRecord × Option String).1.fornecedor_id = wFornA.id :=
  (ranking_membership_order [wFornA, wFornB] [wCotCheap, wCotDear]).2.1 wFornA
    (by decide) rfl (by decide)

/-! ### C8: determinism and evaluation-order independence of the ranking -/

/-- C8. Each supplier's (id, total score) pair depends only on the data,
not on the order suppliers are evaluated in: permuting the supplier table
permutes the ranking's (id, total) pairs and changes no score; and
re-running the ranking on unchanged data returns the identical output. -/
theorem ranking_order_invariant (FA FA' : List Fornecedor) (cots : List Cotacao)
    (hperm : List.Perm FA FA') :
    List.Perm
      ((ranking FA cots).map (fun x => (x.1.fornecedor_id, x.1.score_total)))
      ((ranking FA' cots).map (fun x => (x.1.fornecedor_id, x.1.score_total))) ∧
    ranking FA cots = ranking FA cots := by
  refine ⟨?_, rfl⟩
  have h1 : ∀ G : List Fornecedor, List.Perm
      ((ranking G cots).map (fun x => (x.1.fornecedor_id, x.1.score_total)))
      ((rankingBase G cots).map (fun r => (r.fornecedor_id, r.score_total))) := by
    intro G
    have hmapeq : (ranking G cots).map (fun x => (x.1.fornecedor_id, x.1.score_total)) =
        (rankingSorted G cots).map (fun r => (r.fornecedor_id, r.score_total)) := by
      rw [show (fun x : ScoreRecord × Option String => (x.1.fornecedor_id, x.1.score_total)) =
        (fun r : ScoreRecord => (r.fornecedor_id, r.score_total)) ∘ Prod.fst from rfl]
      rw [← List.map_map, ranking, addMedalhas_map_fst]
    rw [hmapeq]
    exact (List.mergeSort_perm _ _).map _
  have h2 : List.Perm
      ((rankingBase FA cots).map (fun r => (r.fornecedor_id, r.score_total)))
      ((rankingBase FA' cots).map (fun r => (r.fornecedor_id, r.score_total))) :=
    ((hperm.filter _).filterMap _).map _
  exact (h1 FA).trans (h2.trans (h1 FA').symm)

theorem ranking_order_invariant_witness :
    List.Perm
      ((ranking [wFornA, wFornB] [wCotCheap, wCotDear]).map
        (fun x => (x.1.fornecedor_id, x.1.score_total)))
      ((ranking [wFornB, wFornA] [wCotCheap, wCotDear]).map
        (fun x => (x.1.fornecedor_id, x.1.score_total))) ∧
    ranking [wFornA, wFornB] [wCotCheap, wCotDear] =
      ranking [wFornA, wFornB] [wCotCheap, wCotDear] :=
  ranking_order_invariant [wFornA, wFornB] [wFornB, wFornA] [wCotCheap, wCotDear]
    (List.Perm.swap wFornB wFornA [])

/-! ### Delete operations (app.py lines 803-822 and 1316-1337)

The database is modelled as lists of rows in insertion order. Primary-key
lookups (`query.get` / `get_or_404`) are modelled with `find?`; row ids are
unique in the real database (SQLite primary keys, starting at 1), so a
`find?`-hypothesis pins the row and deleting or updating by id touches
exactly that row. -/

structure DB where
  produtos : List Produto
  fornecedores : List Fornecedor
  requisicoes : List Requisicao
  cotacoes : List Cotacao
deriving DecidableEq, Repr

inductive DeleteResult
  | notFound
  | conflict
  | deleted
deriving DecidableEq, Repr

/-- `deletar_fornecedor` (app.py lines 803-822): 404 when the id is
unknown; when the supplier has linked quotations (`forn.cotacoes`, the rows
with this `fornecedor_id`) only an error is flashed and nothing changes;
otherwise `db.session.delete(forn)` removes the supplier row and — because
`fornecedores_selecionados` is a many-to-many over the
`requisicao_fornecedores` secondary table (app.py lines 27-31 and 79-82) —
also deletes that supplier's association rows, removing it from every
request's candidate-supplier set; the requests' own columns stay as they
are. -/
def deletar_fornecedor (db : DB) (id : ℕ) : DB × DeleteResult :=
  match db.fornecedores.find? (fun f => f.id = id) with
  | none => (db, DeleteResult.notFound)
  | some forn =>
    if db.cotacoes.any (fun c => c.fornecedor_id = forn.id) then (db, DeleteResult.conflict)
    else
      ({ db with
          fornecedores := db.fornecedores.filter (fun f => f.id ≠ id)
          requisicoes := db.requisicoes.map (fun r =>
            { r with fornecedores_selecionados :=
                r.fornecedores_selecionados.filter (fun f => f.id ≠ id) }) },
        DeleteResult.deleted)

/-- `deletar_cotacao_final` (app.py lines 1316-1337): look the quotation up
by id (404 leaves the state unchanged); when it carries a truthy
`requisicao_origem_id` (a Python `if`, so `None` and `0` are both falsy)
and that request exists, reset the request's status to `Pendente`; then
delete the quotation row. -/
def deletar_cotacao_final (db : DB) (id : ℕ) : DB :=
  match db.cotacoes.find? (fun c => c.id = id) with
  | none => db
  | some cotacao =>
    let reqs :=
      match cotacao.requisicao_origem_id with
      | some rid =>
        if rid ≠ 0 ∧ db.requisicoes.any (fun r => r.id = rid) then
          db.requisicoes.map (fun r => if r.id = rid then { r with status := "Pendente" } else r)
        else db.requisicoes
      | none => db.requisicoes
    { db with requisicoes := reqs, cotacoes := db.cotacoes.filter (fun c => c.id ≠ id) }

/-! ### C9: supplier deletion is rejected while quotations reference it -/

/-- C9. Deleting a supplier that at least one quotation references fails
with a conflict and changes nothing at all; only a supplier with no linked
quotations is actually removed, and then the products and quotations are
untouched, every other supplier row stays, and the only change to the
requests is that the deleted supplier's candidate-set association rows go
with it (its scalar columns, status included, are unchanged). -/
theorem deletar_fornecedor_spec (db : DB) (forn : Fornecedor)
    (hfind : db.fornecedores.find? (fun f => f.id = forn.id) = some forn) :
    (db.cotacoes.any (fun c => c.fornecedor_id = forn.id) = true →
      deletar_fornecedor db forn.id = (db, DeleteResult.conflict)) ∧
    (db.cotacoes.any (fun c => c.fornecedor_id = forn.id) = false →
      (deletar_fornecedor db forn.id).2 = DeleteResult.deleted ∧
      (deletar_fornecedor db forn.id).1.produtos = db.produtos ∧
      (deletar_fornecedor db forn.id).1.requisicoes = db.requisicoes.map (fun r =>
        { r with fornecedores_selecionados :=
            r.fornecedores_selecionados.filter (fun f => f.id ≠ forn.id) }) ∧
      (deletar_fornecedor db forn.id).1.cotacoes = db.cotacoes ∧
      (deletar_fornecedor db forn.id).1.fornecedores =
        db.fornecedores.filter (fun f => f.id ≠ forn.id) ∧
      forn ∉ (deletar_fornecedor db forn.id).1.fornecedores ∧
      (∀ r ∈ (deletar_fornecedor db forn.id).1.requisicoes,
        ∀ f ∈ r.fornecedores_selecionados, f.id ≠ forn.id) ∧
      (∀ r ∈ db.requisicoes,
        { r with fornecedores_selecionados :=
            r.fornecedores_selecionados.filter (fun f => f.id ≠ forn.id) } ∈
          (deletar_fornecedor db forn.id).1.requisicoes)) := by
  constructor
  · intro h
    simp only [deletar_fornecedor, hfind]
    rw [if_pos h]
  · intro h
    have hneg : ¬ (db.cotacoes.any (fun c => c.fornecedor_id = forn.id) = true) := by
      rw [h]; simp
    simp only [deletar_fornecedor, hfind]
    rw [if_neg hneg]
    refine ⟨rfl, rfl, rfl, rfl, rfl, ?_, ?_, ?_⟩
    · intro hmem
      have := (List.mem_filter.mp hmem).2
      simp at this
    · intro r hr f hf
      obtain ⟨r0, -, rfl⟩ := List.mem_map.mp hr
      have := (List.mem_filter.mp hf).2
      simpa using this
    · intro r hr
      exact List.mem_map_of_mem _ hr

def wReqCand : Requisicao := ⟨5, 3, 1, "Pendente", [wFornA, wFornB]⟩

def wDBConflict : DB := ⟨[wProduto], [wFornA, wFornB], [wReqCand], [wCotCheap]⟩

def wDBFree : DB := ⟨[wProduto], [wFornA, wFornB], [wReqCand], [wCotDear]⟩

theorem deletar_fornecedor_spec_witness :
    deletar_fornecedor wDBConflict wFornA.id = (wDBConflict, DeleteResult.conflict) ∧
    ((deletar_fornecedor wDBFree wFornA.id).2 = DeleteResult.deleted ∧
      (deletar_fornecedor wDBFree wFornA.id).1.produtos = wDBFree.produtos ∧
      (deletar_fornecedor wDBFree wFornA.id).1.requisicoes = wDBFree.requisicoes.map (fun r =>
        { r with fornecedores_selecionados :=
            r.fornecedores_selecionados.filter (fun f => f.id ≠ wFornA.id) }) ∧
      (deletar_fornecedor wDBFree wFornA.id).1.cotacoes = wDBFree.cotacoes ∧
      (deletar_fornecedor wDBFree wFornA.id).1.fornecedores =
        wDBFree.fornecedores.filter (fun f => f.id ≠ wFornA.id) ∧
      wFornA ∉ (deletar_fornecedor wDBFree wFornA.id).1.fornecedores ∧
      (∀ r ∈ (deletar_fornecedor wDBFree wFornA.id).1.requisicoes,
        ∀ f ∈ r.fornecedores_selecionados, f.id ≠ wFornA.id) ∧
      (∀ r ∈ wDBFree.requisicoes,
        { r with fornecedores_selecionados :=
            r.fornecedores_selecionados.filter (fun f => f.id ≠ wFornA.id) } ∈
          (deletar_fornecedor wDBFree wFornA.id).1.requisicoes)) :=
  ⟨(deletar_fornecedor_spec wDBConflict wFornA rfl).1 (by decide),
   (deletar_fornecedor_spec wDBFree wFornA rfl).2 (by decide)⟩

/-! ### C10: deleting a quotation reopens its originating request -/

/-- C10. Deleting a quotation that carries an (always positive in the real
database) originating-request reference resets that request's status to
`Pendente` and removes the quotation row, leaving the other tables
untouched — so an allocation followed by deleting its quotation
round-trips the request back to `Pendente`. -/
theorem deletar_cotacao_reabre_requisicao (db : DB) (cot : Cotacao) (rid : ℕ) (req : Requisicao)
    (hfind : db.cotacoes.find? (fun c => c.id = cot.id) = some cot)
    (horig : cot.requisicao_origem_id = some rid)
    (hrid : rid ≠ 0)
    (hreq : req ∈ db.requisicoes) (hreqid : req.id = rid) :
    { req with status := "Pendente" } ∈ (deletar_cotacao_final db cot.id).requisicoes ∧
    (∀ c ∈ (deletar_cotacao_final db cot.id).cotacoes, c.id ≠ cot.id) ∧
    (deletar_cotacao_final db cot.id).cotacoes =
      db.cotacoes.filter (fun c => c.id ≠ cot.id) ∧
    (deletar_cotacao_final db cot.id).fornecedores = db.fornecedores ∧
    (deletar_cotacao_final db cot.id).produtos = db.produtos := by
  have hany : db.requisicoes.any (fun r => r.id = rid) = true := by
    rw [List.any_eq_true]
    exact ⟨req, hreq, by simp [hreqid]⟩
  have hres : deletar_cotacao_final db cot.id =
      { db with
        requisicoes := db.requisicoes.map
          (fun r => if r.id = rid then { r with status := "Pendente" } else r)
        cotacoes := db.cotacoes.filter (fun c => c.id ≠ cot.id) } := by
    simp only [deletar_cotacao_final, hfind, horig]
    rw [if_pos ⟨hrid, hany⟩]
  rw [hres]
  refine ⟨?_, ?_, rfl, rfl, rfl⟩
  · have hm := List.mem_map_of_mem
      (fun r => if r.id = rid then { r with status := "Pendente" } else r) hreq
    simp only [] at hm
    rwa [if_pos hreqid] at hm
  · intro c hc
    have := (List.mem_filter.mp hc).2
    simpa using this

def wReqProc : Requisicao := ⟨7, 3, 1, "Processado", []⟩

def wCotOrig : Cotacao := ⟨9, 10, 3, 1, some 7⟩

def wDBRound : DB := ⟨[wProduto], [wFornA], [wReqProc], [wCotOrig]⟩

theorem deletar_cotacao_reabre_requisicao_witness :
    { wReqProc with status := "Pendente" } ∈
      (deletar_cotacao_final wDBRound wCotOrig.id).requisicoes ∧
    (∀ c ∈ (deletar_cotacao_final wDBRound wCotOrig.id).cotacoes, c.id ≠ wCotOrig.id) ∧
    (deletar_cotacao_final wDBRound wCotOrig.id).cotacoes =
      wDBRound.cotacoes.filter (fun c => c.id ≠ wCotOrig.id) ∧
    (deletar_cotacao_final wDBRound wCotOrig.id).fornecedores = wDBRound.fornecedores ∧
    (deletar_cotacao_final wDBRound wCotOrig.id).produtos = wDBRound.produtos :=
  deletar_cotacao_reabre_requisicao wDBRound wCotOrig 7 wReqProc rfl rfl
    (by decide) (by decide) rfl

end Tindiana
